import Mathlib

/-!
Verification of the forensics indexing engine (`src/src-tauri/src`).

The Rust sources are shallowly embedded: byte buffers become `List Nat`,
strings become `List Char` (`Str`), fallible or panicking computations
return `Option`/`Except`.  Every definition is translated from the source
file named in its doc comment.
-/

namespace Forensics

/-- Rust `u8` bytes are modelled as natural numbers (values `< 256`). -/
abbrev Byte := Nat

/-- Rust `String`/`&str` contents are modelled as lists of characters. -/
abbrev Str := List Char

/-- ASCII byte list of a Lean string literal, used to write Rust byte-string
literals such as `b"SQLite format 3\0"`. -/
def asciiBytes (s : String) : List Byte := s.toList.map Char.toNat

/-- Rust `u8::is_ascii_whitespace`: space, horizontal tab, line feed,
form feed, carriage return. -/
def isAsciiWhitespaceByte (b : Byte) : Bool :=
  b == 0x20 || b == 0x09 || b == 0x0A || b == 0x0C || b == 0x0D

/-- Rust `u8::is_ascii_graphic`: printable ASCII without space. -/
def isAsciiGraphicByte (b : Byte) : Bool :=
  decide (0x21 ≤ b) && decide (b ≤ 0x7E)

/-- Rust `haystack.windows(needle.len()).any(|w| w == needle)`
(`FileTypeDetector::contains_sequence`, detector.rs:194, and the substring
test of Rust `str::contains`).  Faithful for the non-empty needles the
sources use. -/
def containsSeq [DecidableEq α] (needle : List α) : List α → Bool
  | [] => needle.isPrefixOf ([] : List α)
  | a :: t => needle.isPrefixOf (a :: t) || containsSeq needle t

/-- Rust `str::contains` with a string pattern (substring search). -/
def strContains (s pat : Str) : Bool := containsSeq pat s

/-- Rust `str::starts_with` with a string pattern. -/
def strStartsWith (s pat : Str) : Bool := pat.isPrefixOf s

/-- `FileCategory` (schema.rs:92). -/
inductive FileCategory where
  | Database
  | StructuredData
  | Document
  | Text
  | Media
  | Archive
  | Binary
  | Unknown
deriving DecidableEq, Repr

/-- `FileCategory::from_mime` (schema.rs:264-298).  Rust match arms with
guards are tried in order; `contains`/`starts_with` are substring and
string-prefix tests. -/
def FileCategory.from_mime (m : Str) : FileCategory :=
  if strContains m "sqlite".toList || strContains m "x-sqlite".toList then .Database
  else if m = "application/json".toList || m = "text/json".toList then .StructuredData
  else if m = "application/xml".toList || m = "text/xml".toList then .StructuredData
  else if m = "text/csv".toList then .StructuredData
  else if m = "application/vnd.apache.parquet".toList then .StructuredData
  else if strContains m "pdf".toList then .Document
  else if strContains m "vnd.openxmlformats".toList then .Document
  else if strContains m "msword".toList then .Document
  else if strContains m "vnd.ms-excel".toList then .Document
  else if strStartsWith m "text/".toList then .Text
  else if strStartsWith m "image/".toList then .Media
  else if strStartsWith m "audio/".toList then .Media
  else if strStartsWith m "video/".toList then .Media
  else if strContains m "zip".toList || strContains m "gzip".toList
      || strContains m "tar".toList then .Archive
  else if m = "application/octet-stream".toList
      || m = "application/x-executable".toList then .Binary
  else .Unknown

/-- UTF-8 decoder modelling Rust `std::str::from_utf8` followed by reading
the characters: `none` exactly when the bytes are not valid UTF-8
(rejecting overlong forms, surrogates, and values above `U+10FFFF`). -/
def decodeUtf8 : List Byte → Option (List Char)
  | [] => some []
  | b :: t =>
    if b < 0x80 then (decodeUtf8 t).map (fun r => Char.ofNat b :: r)
    else if b < 0xC2 then none
    else if b < 0xE0 then
      match t with
      | b1 :: t1 =>
        if 0x80 ≤ b1 ∧ b1 < 0xC0 then
          (decodeUtf8 t1).map (fun r => Char.ofNat ((b - 0xC0) * 64 + (b1 - 0x80)) :: r)
        else none
      | [] => none
    else if b < 0xF0 then
      match t with
      | b1 :: b2 :: t2 =>
        if (if b = 0xE0 then 0xA0 else 0x80) ≤ b1 ∧ b1 ≤ (if b = 0xED then 0x9F else 0xBF)
            ∧ 0x80 ≤ b2 ∧ b2 < 0xC0 then
          (decodeUtf8 t2).map
            (fun r => Char.ofNat ((b - 0xE0) * 4096 + (b1 - 0x80) * 64 + (b2 - 0x80)) :: r)
        else none
      | _ => none
    else if b < 0xF5 then
      match t with
      | b1 :: b2 :: b3 :: t3 =>
        if (if b = 0xF0 then 0x90 else 0x80) ≤ b1 ∧ b1 ≤ (if b = 0xF4 then 0x8F else 0xBF)
            ∧ 0x80 ≤ b2 ∧ b2 < 0xC0 ∧ 0x80 ≤ b3 ∧ b3 < 0xC0 then
          (decodeUtf8 t3).map
            (fun r => Char.ofNat ((b - 0xF0) * 262144 + (b1 - 0x80) * 4096
              + (b2 - 0x80) * 64 + (b3 - 0x80)) :: r)
        else none
      | _ => none
    else none
termination_by l => l.length
decreasing_by all_goals simp <;> omega

/-- The Unicode `White_Space` code points removed by Rust `str::trim_start`. -/
def rustIsWhitespace (c : Char) : Bool :=
  c.toNat ∈ [0x09, 0x0A, 0x0B, 0x0C, 0x0D, 0x20, 0x85, 0xA0, 0x1680,
    0x2000, 0x2001, 0x2002, 0x2003, 0x2004, 0x2005, 0x2006, 0x2007,
    0x2008, 0x2009, 0x200A, 0x2028, 0x2029, 0x202F, 0x205F, 0x3000]

/-- Rust `str::trim_start`. -/
def rustTrimStart : Str → Str
  | [] => []
  | c :: t => if rustIsWhitespace c then rustTrimStart t else c :: t

/-- Split a character list at every occurrence of a single character
(helper for the model of Rust `str::lines`). -/
def splitOnChar (sep : Char) : Str → List Str
  | [] => [[]]
  | c :: t =>
    if c = sep then [] :: splitOnChar sep t
    else match splitOnChar sep t with
      | [] => [[c]]
      | p :: ps => (c :: p) :: ps

/-- Rust `str::lines`: split on `'\n'`, strip one trailing `'\r'` from each
line, and do not yield a final empty line for a terminal newline. -/
def rustLines (s : Str) : List Str :=
  if s = [] then []
  else
    let parts := splitOnChar '\n' s
    let parts := if s.getLast? = some '\n' then parts.dropLast else parts
    parts.map (fun l => if l.getLast? = some '\r' then l.dropLast else l)

/-- `FileTypeDetector::looks_like_csv` (detector.rs:156-175). -/
def looks_like_csv (bytes : List Byte) : Bool :=
  match decodeUtf8 (bytes.take (min bytes.length 1024)) with
  | none => false
  | some s =>
    let lines := (rustLines s).take 5
    if 2 ≤ lines.length then
      let first_commas := (lines.headI).count ','
      let first_tabs := (lines.headI).count '\t'
      if 1 ≤ first_commas || 1 ≤ first_tabs then
        (lines.drop 1).all (fun line =>
          let commas := line.count ','
          let tabs := line.count '\t'
          (decide (0 < commas) && (commas == first_commas
            || ((commas : Int) - (first_commas : Int)).natAbs ≤ 1))
          || (decide (0 < tabs) && (tabs == first_tabs
            || ((tabs : Int) - (first_tabs : Int)).natAbs ≤ 1)))
      else false
    else false

/-- `FileTypeDetector::is_text` (detector.rs:178-191).  The `f64` ratio
test `printable / len > 0.85` is modelled as the exact rational comparison
`20 * printable > 17 * len`; with `len ≤ 512` the two never disagree, and
for `len = 0` both are false (`NaN > 0.85` is false). -/
def is_text (bytes : List Byte) : Bool :=
  (decodeUtf8 bytes).isSome &&
    decide (17 * bytes.length <
      20 * (bytes.filter (fun b => isAsciiGraphicByte b || isAsciiWhitespaceByte b)).length)

/-- The JSON branch condition of `identify_type` (detector.rs:102-112):
first non-ASCII-whitespace byte is `{` or `[`, the buffer is valid UTF-8,
and the trimmed text starts with `{` or `[`. -/
def jsonBranch (bytes : List Byte) : Bool :=
  match bytes.find? (fun b => ¬ isAsciiWhitespaceByte b) with
  | some b =>
    (b == '{'.toNat || b == '['.toNat) &&
      (match decodeUtf8 bytes with
        | some s => strStartsWith (rustTrimStart s) "\x7b".toList
            || strStartsWith (rustTrimStart s) "[".toList
        | none => false)
  | none => false

/-- The XML branch condition of `identify_type` (detector.rs:115-121):
the first `min(len, 100)` bytes are valid UTF-8 and the trimmed text
starts with `<?xml` or `<`. -/
def xmlBranch (bytes : List Byte) : Bool :=
  match decodeUtf8 (bytes.take (min bytes.length 100)) with
  | some s => strStartsWith (rustTrimStart s) "<?xml".toList
      || strStartsWith (rustTrimStart s) "<".toList
  | none => false

/-- The static mime-type string constants returned by detector.rs. -/
def mimeOctetStream : Str := "application/octet-stream".toList

def mimeSqlite3 : Str := "application/vnd.sqlite3".toList

def mimeLeveldb : Str := "application/x-leveldb".toList

def mimeXlsx : Str := "application/vnd.openxmlformats-officedocument.spreadsheetml.sheet".toList

def mimeDocx : Str := "application/vnd.openxmlformats-officedocument.wordprocessingml.document".toList

def mimeZip : Str := "application/zip".toList

def mimePdf : Str := "application/pdf".toList

def mimeParquet : Str := "application/vnd.apache.parquet".toList

def mimePng : Str := "image/png".toList

def mimeJpeg : Str := "image/jpeg".toList

def mimeGif : Str := "image/gif".toList

def mimeWebp : Str := "image/webp".toList

def mimeJson : Str := "application/json".toList

def mimeXml : Str := "application/xml".toList

def mimeCsv : Str := "text/csv".toList

def mimeElf : Str := "application/x-executable".toList

def mimeMacho : Str := "application/x-mach-binary".toList

def mimeDosexec : Str := "application/x-dosexec".toList

def mimeTextPlain : Str := "text/plain".toList

/-- detector.rs:47: `bytes.len() >= 16 && &bytes[0..16] == b"SQLite format 3\0"`. -/
def sqliteBranch (bytes : List Byte) : Bool :=
  decide (16 ≤ bytes.length ∧ bytes.take 16 = asciiBytes "SQLite format 3" ++ [0])

/-- detector.rs:52: `bytes.len() >= 8 && &bytes[0..8] == b"leveldb/"`. -/
def leveldbBranch (bytes : List Byte) : Bool :=
  decide (8 ≤ bytes.length ∧ bytes.take 8 = asciiBytes "leveldb/")

/-- detector.rs:57: `bytes.len() >= 4 && &bytes[0..4] == b"PK\x03\x04"`. -/
def zipBranch (bytes : List Byte) : Bool :=
  decide (4 ≤ bytes.length ∧ bytes.take 4 = [0x50, 0x4B, 0x03, 0x04])

/-- detector.rs:59-60: `bytes.len() >= 30` and the buffer contains
`[Content_Types].xml`. -/
def officeBranch (bytes : List Byte) : Bool :=
  decide (30 ≤ bytes.length) && containsSeq (asciiBytes "[Content_Types].xml") bytes

/-- detector.rs:73: `%PDF` magic. -/
def pdfBranch (bytes : List Byte) : Bool :=
  decide (4 ≤ bytes.length ∧ bytes.take 4 = asciiBytes "%PDF")

/-- detector.rs:78: `PAR1` magic. -/
def parquetBranch (bytes : List Byte) : Bool :=
  decide (4 ≤ bytes.length ∧ bytes.take 4 = asciiBytes "PAR1")

/-- detector.rs:85: PNG magic (inside the `bytes.len() >= 8` block). -/
def pngBranch (bytes : List Byte) : Bool :=
  decide (8 ≤ bytes.length ∧ bytes.take 8 = [0x89, 0x50, 0x4E, 0x47, 0x0D, 0x0A, 0x1A, 0x0A])

/-- detector.rs:89: JPEG magic (inside the `bytes.len() >= 8` block). -/
def jpegBranch (bytes : List Byte) : Bool :=
  decide (8 ≤ bytes.length ∧ bytes.take 2 = [0xFF, 0xD8])

/-- detector.rs:93: GIF magics (inside the `bytes.len() >= 8` block). -/
def gifBranch (bytes : List Byte) : Bool :=
  decide (8 ≤ bytes.length ∧
    (bytes.take 6 = asciiBytes "GIF87a" ∨ bytes.take 6 = asciiBytes "GIF89a"))

/-- detector.rs:97: WebP magic (RIFF container with `WEBP` at offset 8). -/
def webpBranch (bytes : List Byte) : Bool :=
  decide (8 ≤ bytes.length ∧ 12 ≤ bytes.length ∧ bytes.take 4 = asciiBytes "RIFF"
    ∧ (bytes.drop 8).take 4 = asciiBytes "WEBP")

/-- detector.rs:129: ELF magic `\x7FELF`. -/
def elfBranch (bytes : List Byte) : Bool :=
  decide (4 ≤ bytes.length ∧ bytes.take 4 = [0x7F] ++ asciiBytes "ELF")

/-- detector.rs:134-139: big-endian `u32` of the first four bytes equals
one of the Mach-O magics. -/
def machoBranch (bytes : List Byte) : Bool :=
  decide (4 ≤ bytes.length ∧
    (let magic := bytes.headI * 16777216 + (bytes.drop 1).headI * 65536
      + (bytes.drop 2).headI * 256 + (bytes.drop 3).headI
     magic = 0xFEEDFACE ∨ magic = 0xFEEDFACF ∨ magic = 0xCAFEBABE))

/-- detector.rs:142: `MZ` magic. -/
def mzBranch (bytes : List Byte) : Bool :=
  decide (2 ≤ bytes.length ∧ bytes.take 2 = asciiBytes "MZ")

/-- `FileTypeDetector::identify_type` (detector.rs:41-153), translated
branch by branch in source order. -/
def identify_type (bytes : List Byte) : Str × FileCategory :=
  if bytes = [] then (mimeOctetStream, .Binary)
  else if sqliteBranch bytes then (mimeSqlite3, .Database)
  else if leveldbBranch bytes then (mimeLeveldb, .Database)
  else if zipBranch bytes then
    if officeBranch bytes then
      if containsSeq (asciiBytes "xl/") bytes then
        (mimeXlsx, .Document)
      else if containsSeq (asciiBytes "word/") bytes then
        (mimeDocx,
          .Document)
      else (mimeZip, .Archive)
    else (mimeZip, .Archive)
  else if pdfBranch bytes then (mimePdf, .Document)
  else if parquetBranch bytes then (mimeParquet, .StructuredData)
  else if pngBranch bytes then (mimePng, .Media)
  else if jpegBranch bytes then (mimeJpeg, .Media)
  else if gifBranch bytes then (mimeGif, .Media)
  else if webpBranch bytes then (mimeWebp, .Media)
  else if jsonBranch bytes then (mimeJson, .StructuredData)
  else if decide (5 ≤ bytes.length) && xmlBranch bytes then
    (mimeXml, .StructuredData)
  else if looks_like_csv bytes then (mimeCsv, .StructuredData)
  else if elfBranch bytes then (mimeElf, .Binary)
  else if machoBranch bytes then (mimeMacho, .Binary)
  else if mzBranch bytes then (mimeDosexec, .Binary)
  else if is_text bytes then (mimeTextPlain, .Text)
  else (mimeOctetStream, .Binary)

/-- Lower-case hex digit, as produced by `hex::encode`. -/
def hexDigit (n : Nat) : Char := "0123456789abcdef".toList.getD n '0'

/-- `hex::encode` on a byte buffer. -/
def hexEncode (bytes : List Byte) : Str :=
  bytes.flatMap (fun b => [hexDigit (b / 16), hexDigit (b % 16)])

/-- `DetectedFileType` (detector.rs:10-15). -/
structure DetectedFileType where
  mime_type : Str
  category : FileCategory
  magic_header : Str
deriving DecidableEq, Repr

/-- `FileTypeDetector::detect` (detector.rs:20-38) over the file content:
read at most 512 bytes, hex-encode the first `min(16, bytes_read)` bytes,
and classify the read prefix.  The function is total: a readable file of
any size (including 0) detects without error. -/
def FileTypeDetector.detect (content : List Byte) : DetectedFileType :=
  let buf := content.take 512
  { mime_type := (identify_type buf).1
    category := (identify_type buf).2
    magic_header := hexEncode (if 16 ≤ buf.length then buf.take 16 else buf) }

/-- The eight registered extractors, in registration order
(extractors/mod.rs:68-75). -/
inductive ExtractorKind where
  | sqlite | json | csv | excel | xml | text | leveldb | indexeddb
deriving DecidableEq, Repr

/-- The `can_handle` predicate of each extractor (sqlite.rs:75, json.rs:53,
csv_extractor.rs:66, excel.rs:80, xml.rs:81, text.rs:40, leveldb.rs:47,
indexeddb.rs:60). -/
def ExtractorKind.can_handle : ExtractorKind → FileCategory → Str → Bool
  | .sqlite, c, m => decide (c = .Database)
      && (strContains m "sqlite".toList || strContains m "x-sqlite".toList)
  | .json, c, m => decide (c = .StructuredData)
      && (decide (m = "application/json".toList) || decide (m = "text/json".toList))
  | .csv, c, m => decide (c = .StructuredData) && decide (m = "text/csv".toList)
  | .excel, c, m => decide (c = .Document)
      && strContains m "vnd.openxmlformats-officedocument.spreadsheetml".toList
  | .xml, c, m => decide (c = .StructuredData)
      && (decide (m = "application/xml".toList) || decide (m = "text/xml".toList))
  | .text, c, _ => decide (c = .Text)
  | .leveldb, c, m => decide (c = .Database)
      && (strContains m "leveldb".toList || strContains m "x-leveldb".toList)
  | .indexeddb, c, _ => decide (c = .Database)

/-- `ExtractorRegistry::new` registration order (extractors/mod.rs:68-75). -/
def registryOrder : List ExtractorKind :=
  [.sqlite, .json, .csv, .excel, .xml, .text, .leveldb, .indexeddb]

/-- `ExtractorRegistry::find_extractor` (extractors/mod.rs:91-100): first
registered extractor whose `can_handle` is true. -/
def find_extractor (c : FileCategory) (m : Str) : Option ExtractorKind :=
  registryOrder.find? (fun e => e.can_handle c m)

/-- The minimal preview `"<mime> file"` that `ExtractorRegistry::extract`
returns when no extractor handles the file (extractors/mod.rs:112-119). -/
def registryFallbackPreview (m : Str) : Str := m ++ " file".toList

/-- Rust `char::len_utf8`: number of bytes in the UTF-8 encoding of a
character. -/
def utf8Len (c : Char) : Nat :=
  if c.toNat < 0x80 then 1
  else if c.toNat < 0x800 then 2
  else if c.toNat < 0x10000 then 3
  else 4

/-- Rust `str::len`: the length of a string in bytes. -/
def byteLen (s : Str) : Nat := (s.map utf8Len).sum

/-- Rust byte slicing `&s[..n]`: `none` models the panic raised when `n`
is past the end or not on a character boundary. -/
def sliceBytesTo : Str → Nat → Option Str
  | _, 0 => some []
  | [], _ + 1 => none
  | c :: t, n + 1 =>
    if utf8Len c ≤ n + 1 then (sliceBytesTo t (n + 1 - utf8Len c)).map (fun r => c :: r)
    else none

/-- The preview built by `TextExtractor::extract` (text.rs:26-30):
`format!("{}\n...", &content[..497])` when `content.len() > 500`, the
content itself otherwise.  `none` models the byte-slicing panic. -/
def TextExtractor.preview (content : Str) : Option Str :=
  if 500 < byteLen content then (sliceBytesTo content 497).map (fun r => r ++ "\n...".toList)
  else some content

/-- The preview built by `JsonExtractor::extract` (json.rs:34-38), textually
identical to the Text extractor's truncation. -/
def JsonExtractor.preview (content : Str) : Option Str :=
  if 500 < byteLen content then (sliceBytesTo content 497).map (fun r => r ++ "\n...".toList)
  else some content

/-- `JsonExtractor::get_sample` on a JSON string value (json.rs:122-130):
`format!("{}...", &s[..97])` when `s.len() > 100`.  `none` models the
byte-slicing panic. -/
def JsonExtractor.get_sample (s : Str) : Option Str :=
  if 100 < byteLen s then (sliceBytesTo s 97).map (fun r => r ++ "...".toList)
  else some s

/-- `FileState` (watcher.rs:17-23), with the path held by the enclosing
cache map and the SHA-256 hex digest abstracted to its value (only
equality of digests is ever used). -/
structure FileState where
  size : Nat
  modified : Nat
  hash : Nat
deriving DecidableEq, Repr

/-- What the filesystem shows for one path when `detect_change` runs:
missing, present but not a regular file, or a regular file with a size,
an mtime and a full-content SHA-256 value. -/
inductive FsView where
  | absent
  | notFile
  | file (size : Nat) (modified : Nat) (sha : Nat)
deriving DecidableEq, Repr

/-- `FileChange` (watcher.rs:25-35). -/
inductive FileChange where
  | Added (path : Str)
  | Modified (path : Str)
  | Deleted (path : Str)
  | Unchanged (path : Str)
deriving DecidableEq, Repr

/-- `ChangeDetector::detect_change` (watcher.rs:70-133) for one path:
takes the cache entry stored for `path` and the filesystem view of
`path`, returns the classification and the new cache entry for `path`.
`Self::calculate_hash` is the full-content SHA-256 carried by the
`file` view. -/
def ChangeDetector.detect_change (path : Str) (cache : Option FileState)
    (fs : FsView) : FileChange × Option FileState :=
  match fs with
  | .absent =>
    match cache with
    | some _ => (.Deleted path, none)
    | none => (.Unchanged path, none)
  | .notFile => (.Unchanged path, cache)
  | .file size modified sha =>
    match cache with
    | none => (.Added path, some ⟨size, modified, sha⟩)
    | some c =>
      if c.size = size ∧ c.modified = modified then (.Unchanged path, some c)
      else if sha = c.hash then (.Unchanged path, some ⟨size, modified, sha⟩)
      else (.Modified path, some ⟨size, modified, sha⟩)

/-- `ArchiveFormat` (archive_settings.rs:72-85). -/
inductive ArchiveFormat where
  | Zip | Tar | TarGz | TarBz2 | TarXz | SevenZ | Rar | Gzip | Bzip2 | Xz
deriving DecidableEq, Repr

/-- `ArchiveFormat::is_supported` (archive_settings.rs:107-114). -/
def ArchiveFormat.is_supported : ArchiveFormat → Bool
  | .Zip | .Tar | .TarGz | .TarBz2 | .Gzip => true
  | .SevenZ => true
  | .Rar => false
  | _ => false

/-- `ArchiveSettings` (archive_settings.rs:6-26). -/
structure ArchiveSettings where
  auto_unpack : Bool
  unpack_to_host : Bool
  max_archive_size : Option Nat
  max_nesting_level : Nat
  archive_extensions : List Str
  clean_on_reindex : Bool
deriving DecidableEq, Repr

/-- `ArchiveSettings::default` (archive_settings.rs:28-47). -/
def ArchiveSettings.default : ArchiveSettings where
  auto_unpack := true
  unpack_to_host := true
  max_archive_size := some (5 * 1024 * 1024 * 1024)
  max_nesting_level := 3
  archive_extensions :=
    ["zip", "tar", "gz", "tgz", "bz2", "xz", "7z", "rar"].map String.toList
  clean_on_reindex := false

/-- The size guard of `unpack` (archive_extractor.rs:40-48):
`if let Some(max_size) = settings.max_archive_size { size > max_size }`. -/
def archiveSizeExceeded (settings : ArchiveSettings) (size : Nat) : Bool :=
  match settings.max_archive_size with
  | some max_size => decide (max_size < size)
  | none => false

/-- The per-format extraction dispatch of `unpack`
(archive_extractor.rs:53-71): formats failing `is_supported` are
rejected, and the `match` on the format only extracts Zip, Tar, TarGz,
Gzip and SevenZ, bailing with "Unsupported format" on everything else
(including TarBz2, which `is_supported` accepts). -/
def unpackDispatch (format : ArchiveFormat) : Except Str ArchiveFormat :=
  if format.is_supported = false then .error "Unsupported archive format".toList
  else
    match format with
    | .Zip => .ok .Zip
    | .Tar => .ok .Tar
    | .TarGz => .ok .TarGz
    | .Gzip => .ok .Gzip
    | .SevenZ => .ok .SevenZ
    | _ => .error "Unsupported format".toList

/-- `ArchiveExtractor::unpack` (archive_extractor.rs:21-81) up to the
extraction call: `size` is the archive's on-disk size and `format` the
result of `detect_format` (I/O abstracted); `.ok f` means the guards
passed and control reaches the extraction of format `f`. -/
def ArchiveExtractor.unpack (settings : ArchiveSettings) (size : Nat)
    (nesting_level : Nat) (format : ArchiveFormat) : Except Str ArchiveFormat :=
  if settings.max_nesting_level ≤ nesting_level then
    .error "Archive nesting level exceeds maximum".toList
  else if archiveSizeExceeded settings size then
    .error "Archive size exceeds maximum".toList
  else unpackDispatch format

/-- `true` when an `Except` result is `.ok` (the unpack proceeded). -/
def unpackProceeds (r : Except Str ArchiveFormat) : Bool :=
  match r with
  | .ok _ => true
  | .error _ => false

/-- `ColumnSchema` (schema.rs:214-219). -/
structure ColumnSchema where
  name : Str
  data_type : Str
  nullable : Bool
deriving DecidableEq, Repr

/-- `CsvExtractor::infer_schema` (csv_extractor.rs:112-163), column by
column.  `isF64`/`isI64` model `field.parse::<f64>().is_ok()` and
`field.parse::<i64>().is_ok()` (external std parsers, passed as
parameters).  A record's field `idx` participates only when `idx` is
within the headers (the code breaks past `schema.len()`) and the cell is
non-empty. -/
def CsvExtractor.infer_schema (isF64 isI64 : Str → Bool)
    (headers : List Str) (sample : List (List Str)) : List ColumnSchema :=
  (List.range headers.length).map (fun idx =>
    let name := headers.getD idx []
    let cells := (sample.filterMap (fun rec => rec.get? idx)).filter (fun f => f ≠ [])
    let has_values := !cells.isEmpty
    let all_numeric := cells.all isF64
    let all_integer := cells.all (fun f => isF64 f && isI64 f)
    let data_type :=
      if all_integer && has_values then "integer".toList
      else if all_numeric && has_values then "number".toList
      else "string".toList
    ⟨name, data_type, true⟩)

/-- `CsvExtractor::extract` (csv_extractor.rs:12-64), restricted to the
shape outputs `(headers, schema, row_count)`.  `records` is the parsed
record stream of the file; `reader.headers()` consumes the first record,
`infer_schema` consumes the next `min(100, ·)` records from the same
reader, and `reader.into_records().count()` then counts only the
records remaining after the sample. -/
def CsvExtractor.extract (isF64 isI64 : Str → Bool)
    (records : List (List Str)) : List Str × List ColumnSchema × Nat :=
  let headers := records.headD []
  let data := records.tail
  let sample := data.take 100
  let schema := CsvExtractor.infer_schema isF64 isI64 headers sample
  let remaining := data.drop 100
  (headers, schema, remaining.length)

/-- The lowercased `{:?}` rendering of a category, as stored in the
index's `category` keyword field (inverted.rs:126-129) and as written
into the planner's `category:` query part (query.rs:137-139). -/
def categoryKeyword : FileCategory → Str
  | .Database => "database".toList
  | .StructuredData => "structureddata".toList
  | .Document => "document".toList
  | .Text => "text".toList
  | .Media => "media".toList
  | .Archive => "archive".toList
  | .Binary => "binary".toList
  | .Unknown => "unknown".toList

/-- The tantivy document written by `InvertedIndex::add_document`
(inverted.rs:102-153): the stored keyword/numeric fields of a
`FileDocument` after the field mapping (text fields that are indexed but
not stored are omitted; they play no role in the claims). -/
structure TantivyDoc where
  id : Str
  path : Str
  size : Nat
  hash : Str
  mime_type : Str
  category : Str
  extension : Option Str
  preview : Option Str
deriving DecidableEq, Repr

/-- The tantivy index as seen through `InvertedIndex`: documents already
committed (visible to searches) and documents buffered in the writer
since the last commit. -/
structure InvertedIndexState where
  committed : List TantivyDoc
  pending : List TantivyDoc
deriving DecidableEq, Repr

/-- `InvertedIndex::add_document` (inverted.rs:101-153): builds the
tantivy document and calls `writer.add_document(doc)`.  Tantivy's
`add_document` appends a new document; no `delete_term` call precedes it
anywhere in the codebase, so an existing document with the same `id` is
left in place. -/
def InvertedIndex.add_document (st : InvertedIndexState) (d : TantivyDoc) :
    InvertedIndexState :=
  { st with pending := st.pending ++ [d] }

/-- `InvertedIndex::commit` (inverted.rs:210-214): publishes the buffered
documents. -/
def InvertedIndex.commit (st : InvertedIndexState) : InvertedIndexState :=
  ⟨st.committed ++ st.pending, []⟩

/-- `InvertedIndex::document_count` (inverted.rs:300-304):
`searcher.num_docs()`, the number of live committed documents (no
deletion ever happens, so every committed document is live). -/
def InvertedIndex.document_count (st : InvertedIndexState) : Nat :=
  st.committed.length

/-- The change filter of `MasterIndexer::index_directory`
(indexer.rs:237-243): only `Added` and `Modified` paths are retained;
`Deleted` (and `Unchanged`) entries are dropped and no index deletion is
performed for them. -/
def filesToIndex (changes : List FileChange) : List Str :=
  changes.filterMap (fun change =>
    match change with
    | .Added p => some p
    | .Modified p => some p
    | _ => none)

/-- One metadata query part `field:value` built by
`execute_metadata_filter` (query.rs:136-147). -/
abbrev QueryPart := Str × Str

/-- Model of the engine's conjunctive keyword query for the strings the
planner builds (query.rs:149-157): the empty part list is the match-all
query `"*"`, and `f1:v1 AND f2:v2 ...` matches the documents whose
stored field equals every given value. -/
def matchesPart (d : TantivyDoc) (part : QueryPart) : Bool :=
  if part.1 = "category".toList then decide (d.category = part.2)
  else if part.1 = "mime_type".toList then decide (d.mime_type = part.2)
  else if part.1 = "extension".toList then decide (d.extension = some part.2)
  else false

/-- Conjunctive search over the committed documents (limit 10000 is
never reached in the claims and is omitted). -/
def searchConj (docs : List TantivyDoc) (parts : List QueryPart) : List TantivyDoc :=
  if parts = [] then docs else docs.filter (fun d => parts.all (matchesPart d))

/-- `QueryPlanner::execute_metadata_filter` (query.rs:126-160): builds
`category:`/`mime_type:`/`extension:` parts and searches.  The
`_min_size` and `_max_size` parameters are accepted and ignored, exactly
as in the source (they are underscore-bound and never used; the comment
at query.rs:149-150 defers size filtering). -/
def QueryPlanner.execute_metadata_filter (docs : List TantivyDoc)
    (category : Option FileCategory) (mime_type : Option Str)
    (_min_size : Option Nat) (_max_size : Option Nat)
    (extension : Option Str) : List TantivyDoc :=
  let query_parts : List QueryPart :=
    (match category with
      | some cat => [("category".toList, categoryKeyword cat)]
      | none => []) ++
    (match mime_type with
      | some mime => [("mime_type".toList, mime)]
      | none => []) ++
    (match extension with
      | some ext => [("extension".toList, ext)]
      | none => [])
  searchConj docs query_parts

/-- Rust `str::replace` with a single-character pattern and replacement
(the `name.replace("-", "#")` of auxiliary.rs:29/36 and the
`x.replace("#", "-")` of auxiliary.rs:46-49): character-wise
substitution. -/
def replaceChar (s : Str) (pat rep : Char) : Str :=
  s.map (fun c => if c = pat then rep else c)

/-- The `parts[0].replace("g-", "")` of auxiliary.rs:60: remove every
non-overlapping occurrence of the two-character pattern `g-`, scanning
left to right. -/
def removeGdash : Str → Str
  | [] => []
  | [c] => [c]
  | c1 :: c2 :: t =>
    if c1 = 'g' ∧ c2 = '-' then removeGdash t
    else c1 :: removeGdash (c2 :: t)

/-- The `grp.split("--")` of auxiliary.rs:58: Rust `str::split` with the
two-character pattern `--`, splitting at every non-overlapping
occurrence scanning left to right (empty parts included). -/
def splitDashDash : Str → List Str
  | [] => [[]]
  | [c] => [[c]]
  | c1 :: c2 :: t =>
    if c1 = '-' ∧ c2 = '-' then [] :: splitDashDash t
    else
      match splitDashDash (c2 :: t) with
      | [] => [[c1]]
      | p :: ps => (c1 :: p) :: ps

/-- The tree names of a freshly opened sled database: sled always has the
default tree `__sled__default` (filtered out by auxiliary.rs:51). -/
def sledInit : List Str := ["__sled__default".toList]

/-- `AuxiliaryProjectDb::create_group` (auxiliary.rs:28-33): opens
(creating if missing) the tree whose name is the compound key
`g-{name.replace("-", "#")}-{color}`.  The database is modelled by its
list of tree names. -/
def AuxiliaryProjectDb.create_group (db : List Str) (name color : Str) : List Str :=
  let key := "g-".toList ++ replaceChar name '-' '#' ++ "-".toList ++ color
  if key ∈ db then db else db ++ [key]

/-- `AuxiliaryProjectDb::get_trees` (auxiliary.rs:41-52): every tree
name with `#` replaced back by `-`, dropping `__sled__default`. -/
def AuxiliaryProjectDb.get_trees (db : List Str) : List Str :=
  (db.map (fun x => replaceChar x '#' '-')).filter
    (fun x => x ≠ "__sled__default".toList)

/-- The loop body of `get_groups` (auxiliary.rs:56-65) over the filtered
tree names, collecting `(name, color)` pairs: the unescaped tree name is
split on `"--"`; `name` is `parts[0].replace("g-", "")` and `color` is
`parts[1]`, whose out-of-bounds indexing panic is modelled by `none`. -/
def collectGroups : List Str → Option (List (Str × Str))
  | [] => some []
  | grp :: rest =>
    let parts := splitDashDash grp
    match parts.get? 1 with
    | some color =>
      match collectGroups rest with
      | some gs => some ((removeGdash (parts.headD []), color) :: gs)
      | none => none
    | none => none

/-- `AuxiliaryProjectDb::get_groups` (auxiliary.rs:54-67), restricted to
the `(name, color)` pairs (the per-group content plays no role in the
claim). -/
def AuxiliaryProjectDb.get_groups (db : List Str) : Option (List (Str × Str)) :=
  collectGroups ((AuxiliaryProjectDb.get_trees db).filter
    (fun x => strStartsWith x "g-".toList))

/-- The closed set of `(mime_type, category)` pairs `identify_type` can
return (one entry per `return` statement of detector.rs:41-153). -/
def detectorOutputs : List (Str × FileCategory) :=
  [(mimeOctetStream, .Binary),
   (mimeSqlite3, .Database),
   (mimeLeveldb, .Database),
   (mimeXlsx, .Document),
   (mimeDocx, .Document),
   (mimeZip, .Archive),
   (mimePdf, .Document),
   (mimeParquet, .StructuredData),
   (mimePng, .Media),
   (mimeJpeg, .Media),
   (mimeGif, .Media),
   (mimeWebp, .Media),
   (mimeJson, .StructuredData),
   (mimeXml, .StructuredData),
   (mimeCsv, .StructuredData),
   (mimeElf, .Binary),
   (mimeMacho, .Binary),
   (mimeDosexec, .Binary),
   (mimeTextPlain, .Text)]

theorem identify_type_mem_outputs (bytes : List Byte) :
    identify_type bytes ∈ detectorOutputs := by
  unfold identify_type
  by_cases h0 : bytes = []
  · rw [if_pos h0]; decide
  rw [if_neg h0]
  by_cases h1 : sqliteBranch bytes = true
  · rw [if_pos h1]; decide
  rw [if_neg h1]
  by_cases h2 : leveldbBranch bytes = true
  · rw [if_pos h2]; decide
  rw [if_neg h2]
  by_cases h3 : zipBranch bytes = true
  · rw [if_pos h3]
    by_cases h3a : officeBranch bytes = true
    · rw [if_pos h3a]
      by_cases h3b : containsSeq (asciiBytes "xl/") bytes = true
      · rw [if_pos h3b]; decide
      rw [if_neg h3b]
      by_cases h3c : containsSeq (asciiBytes "word/") bytes = true
      · rw [if_pos h3c]; decide
      rw [if_neg h3c]; decide
    · rw [if_neg h3a]; decide
  rw [if_neg h3]
  by_cases h4 : pdfBranch bytes = true
  · rw [if_pos h4]; decide
  rw [if_neg h4]
  by_cases h5 : parquetBranch bytes = true
  · rw [if_pos h5]; decide
  rw [if_neg h5]
  by_cases h6 : pngBranch bytes = true
  · rw [if_pos h6]; decide
  rw [if_neg h6]
  by_cases h7 : jpegBranch bytes = true
  · rw [if_pos h7]; decide
  rw [if_neg h7]
  by_cases h8 : gifBranch bytes = true
  · rw [if_pos h8]; decide
  rw [if_neg h8]
  by_cases h9 : webpBranch bytes = true
  · rw [if_pos h9]; decide
  rw [if_neg h9]
  by_cases h10 : jsonBranch bytes = true
  · rw [if_pos h10]; decide
  rw [if_neg h10]
  by_cases h11 : (decide (5 ≤ bytes.length) && xmlBranch bytes) = true
  · rw [if_pos h11]; decide
  rw [if_neg h11]
  by_cases h12 : looks_like_csv bytes = true
  · rw [if_pos h12]; decide
  rw [if_neg h12]
  by_cases h13 : elfBranch bytes = true
  · rw [if_pos h13]; decide
  rw [if_neg h13]
  by_cases h14 : machoBranch bytes = true
  · rw [if_pos h14]; decide
  rw [if_neg h14]
  by_cases h15 : mzBranch bytes = true
  · rw [if_pos h15]; decide
  rw [if_neg h15]
  by_cases h16 : is_text bytes = true
  · rw [if_pos h16]; decide
  rw [if_neg h16]; decide

theorem from_mime_agrees_on_outputs :
    ∀ p ∈ detectorOutputs,
      p.1 ≠ mimeLeveldb →
      p.1 ≠ mimeDosexec →
      p.1 ≠ mimeMacho →
      FileCategory.from_mime p.1 = p.2 := by decide

/-- Claim C2 (counterexample): for a file beginning with `leveldb/` the
detector returns mime type `application/x-leveldb` with category
`Database`, but `FileCategory::from_mime` maps that mime type to
`Unknown`, so `from_mime(detect(x).mime_type) = detect(x).category`
fails at this input. -/
theorem C2_counterexample_leveldb :
    FileCategory.from_mime (FileTypeDetector.detect (asciiBytes "leveldb/")).mime_type
      ≠ (FileTypeDetector.detect (asciiBytes "leveldb/")).category := by decide

/-- Claim C2 (amended): for every input, the category returned by the
detector agrees with `FileCategory::from_mime` applied to the returned
mime type, except for the three mime types `application/x-leveldb`,
`application/x-dosexec` and `application/x-mach-binary`, which
`from_mime` maps to `Unknown` while the detector assigns `Database`,
`Binary` and `Binary` respectively. -/
theorem C2_from_mime_agrees_with_detector (content : List Byte)
    (h1 : (FileTypeDetector.detect content).mime_type ≠ mimeLeveldb)
    (h2 : (FileTypeDetector.detect content).mime_type ≠ mimeDosexec)
    (h3 : (FileTypeDetector.detect content).mime_type ≠ mimeMacho) :
    FileCategory.from_mime (FileTypeDetector.detect content).mime_type
      = (FileTypeDetector.detect content).category :=
  from_mime_agrees_on_outputs _ (identify_type_mem_outputs (content.take 512)) h1 h2 h3

/-- Claim C2 (witness): the amended theorem applied to the empty file. -/
theorem C2_witness :
    FileCategory.from_mime (FileTypeDetector.detect []).mime_type
      = (FileTypeDetector.detect []).category :=
  C2_from_mime_agrees_with_detector [] (by decide) (by decide) (by decide)

theorem one_le_utf8Len (c : Char) : 1 ≤ utf8Len c := by
  unfold utf8Len
  split_ifs <;> omega

theorem length_le_byteLen (s : Str) : s.length ≤ byteLen s := by
  induction s with
  | nil => simp [byteLen]
  | cons c t ih =>
    have := one_le_utf8Len c
    simp only [byteLen, List.map_cons, List.sum_cons, List.length_cons] at *
    omega

theorem sliceBytesTo_length {s : Str} {n : Nat} {t : Str}
    (h : sliceBytesTo s n = some t) : t.length ≤ n := by
  induction s generalizing n t with
  | nil =>
    cases n with
    | zero =>
      simp only [sliceBytesTo, Option.some.injEq] at h
      subst h; simp
    | succ m => simp [sliceBytesTo] at h
  | cons c s ih =>
    cases n with
    | zero =>
      simp only [sliceBytesTo, Option.some.injEq] at h
      subst h; simp
    | succ m =>
      simp only [sliceBytesTo] at h
      by_cases hc : utf8Len c ≤ m + 1
      · rw [if_pos hc] at h
        rw [Option.map_eq_some'] at h
        obtain ⟨r, hr, hcr⟩ := h
        have := ih hr
        have h1 := one_le_utf8Len c
        subst hcr
        simp only [List.length_cons]
        omega
      · rw [if_neg hc] at h; simp at h

set_option maxRecDepth 8000 in
/-- Claim C4 (counterexample): on an input of 501 ASCII characters the
Text extractor stores a preview of 501 characters (497 characters plus
`"\n..."`), which exceeds the claimed bound of 500. -/
theorem C4_counterexample_preview_501 :
    (TextExtractor.preview (List.replicate 501 'a')).map List.length = some 501
      ∧ ¬ (501 ≤ 500) := ⟨by decide, by decide⟩

/-- Claim C4 (amended): every preview the Text or JSON extractor produces
without panicking is at most 501 characters long (at most 497 sliced
characters plus the four characters of `"\n..."`; the bound 500 claimed
by the spec is exceeded by exactly one character on long inputs). -/
theorem C4_preview_at_most_501 (content res : Str)
    (h : TextExtractor.preview content = some res
      ∨ JsonExtractor.preview content = some res) :
    res.length ≤ 501 := by
  have main : ∀ r : Str,
      (if 500 < byteLen content then
        (sliceBytesTo content 497).map (fun x => x ++ "\n...".toList)
      else some content) = some r → r.length ≤ 501 := by
    intro r hr
    by_cases hb : 500 < byteLen content
    · rw [if_pos hb] at hr
      rw [Option.map_eq_some'] at hr
      obtain ⟨t, ht, hcr⟩ := hr
      have hl := sliceBytesTo_length ht
      subst hcr
      simp only [List.length_append]
      have h4 : ("\n...".toList : Str).length = 4 := by decide
      omega
    · rw [if_neg hb] at hr
      simp only [Option.some.injEq] at hr
      subst hr
      have := length_le_byteLen content
      omega
  cases h with
  | inl h => exact main res h
  | inr h => exact main res h

/-- Claim C4 (witness): the amended bound applied to the one-character
content `"a"`. -/
theorem C4_witness : (['a'] : Str).length ≤ 501 :=
  C4_preview_at_most_501 ['a'] ['a'] (Or.inl (by decide))

set_option maxRecDepth 8000 in
/-- Claim C10: the Text extractor's preview truncation panics on the
valid UTF-8 content of 496 `'a'` followed by three `'é'` (502 bytes, so
the slice `&content[..497]` falls inside the first two-byte character),
and the JSON sample truncation panics likewise at byte offset 97; the
extractors are not total over valid UTF-8 inputs. -/
theorem C10_truncation_panics_on_multibyte :
    TextExtractor.preview (List.replicate 496 'a' ++ List.replicate 3 'é') = none ∧
    JsonExtractor.get_sample (List.replicate 96 'a' ++ List.replicate 3 'é') = none :=
  ⟨by decide, by decide⟩

/-- Claim C3 (counterexample): a cached regular file whose size and mtime
match the cache is reported `Unchanged` even when its full-content
SHA-256 differs from the cached hash (watcher.rs:94-96 returns before
hashing), so "Modified if and only if the hash differs" fails. -/
theorem C3_counterexample_same_size_mtime :
    ChangeDetector.detect_change "/e/a.txt".toList (some ⟨10, 5, 42⟩) (.file 10 5 99)
      = (.Unchanged "/e/a.txt".toList, some ⟨10, 5, 42⟩) ∧ (99 : Nat) ≠ 42 :=
  ⟨by decide, by decide⟩

/-- Claim C3 (amended): for an existing regular file with a cache entry,
`detect_change` returns `Modified` iff size or mtime differs from the
cache AND the full-content SHA-256 differs from the cached hash; when
size or mtime differ but the hash is equal it updates the entry's size
and mtime in place and returns `Unchanged`; when size and mtime both
equal the cached values it returns `Unchanged` with the entry untouched,
without consulting the hash (the result is the same for every `sha`). -/
theorem C3_detect_change_cases (path : Str) (c : FileState)
    (size modified sha : Nat) :
    ((ChangeDetector.detect_change path (some c) (.file size modified sha)).1
        = .Modified path
      ↔ (¬ (c.size = size ∧ c.modified = modified) ∧ sha ≠ c.hash)) ∧
    (¬ (c.size = size ∧ c.modified = modified) → sha = c.hash →
      ChangeDetector.detect_change path (some c) (.file size modified sha)
        = (.Unchanged path, some ⟨size, modified, sha⟩)) ∧
    (c.size = size → c.modified = modified →
      ChangeDetector.detect_change path (some c) (.file size modified sha)
        = (.Unchanged path, some c)) := by
  obtain ⟨cs, cm, ch⟩ := c
  simp only [ChangeDetector.detect_change]
  by_cases h1 : cs = size ∧ cm = modified
  · rw [if_pos h1]
    refine ⟨by simp_all, by simp_all, by simp_all⟩
  · rw [if_neg h1]
    by_cases h2 : sha = ch
    · rw [if_pos h2]
      refine ⟨by simp_all, by simp_all, by simp_all⟩
    · rw [if_neg h2]
      refine ⟨by simp_all, by simp_all, by simp_all⟩

/-- Claim C3 (witness): the amended characterization applied to a cache
entry `(size 10, mtime 5, hash 42)` and a file now showing
`(size 10, mtime 6, hash 42)`: an mtime-only bump with identical content
is recognized and the cache entry is updated in place. -/
theorem C3_witness :
    ChangeDetector.detect_change "/e/a.txt".toList (some ⟨10, 5, 42⟩) (.file 10 6 42)
      = (.Unchanged "/e/a.txt".toList, some ⟨10, 6, 42⟩) :=
  (C3_detect_change_cases "/e/a.txt".toList ⟨10, 5, 42⟩ 10 6 42).2.1 (by decide) rfl

/-- Claim C8 (counterexample): the detector classifies a file of size 0
as `Binary`, not `Text` (detector.rs:42-44 returns
`application/octet-stream` for an empty buffer). -/
theorem C8_counterexample_empty_not_text :
    (FileTypeDetector.detect []).category ≠ FileCategory.Text := by decide

/-- Claim C8 (amended): detecting a file of size 0 succeeds (the
detection function is total) and returns mime type
`application/octet-stream`, category `Binary`, and an empty magic
header; no registered extractor handles that combination, so the
indexed document's preview is the registry fallback
`"application/octet-stream file"`, not `""`. -/
theorem C8_empty_file_binary :
    FileTypeDetector.detect [] =
      ⟨mimeOctetStream, FileCategory.Binary, []⟩ ∧
    find_extractor FileCategory.Binary mimeOctetStream = none ∧
    registryFallbackPreview mimeOctetStream = "application/octet-stream file".toList := by
  refine ⟨by decide, by decide, by decide⟩

/-- Claim C6: `unpack` errors whenever the nesting level is at least
`max_nesting_level`; it errors whenever a configured `max_archive_size`
is exceeded; and for an archive of one of the supported formats (zip,
tar, tar.gz, gzip, 7z per the spec's list) at nesting level
`max_nesting_level − 1` within the size budget, control reaches the
extraction of that format. -/
theorem C6_unpack_limits (settings : ArchiveSettings) (size nesting : Nat)
    (format : ArchiveFormat) :
    (settings.max_nesting_level ≤ nesting →
      unpackProceeds (ArchiveExtractor.unpack settings size nesting format) = false) ∧
    (∀ m, settings.max_archive_size = some m → m < size →
      unpackProceeds (ArchiveExtractor.unpack settings size nesting format) = false) ∧
    (format ∈ [ArchiveFormat.Zip, .Tar, .TarGz, .Gzip, .SevenZ] →
      nesting + 1 = settings.max_nesting_level →
      (∀ m, settings.max_archive_size = some m → size ≤ m) →
      ArchiveExtractor.unpack settings size nesting format = .ok format) := by
  refine ⟨?_, ?_, ?_⟩
  · intro h
    unfold ArchiveExtractor.unpack
    rw [if_pos h]
    rfl
  · intro m hm hs
    unfold ArchiveExtractor.unpack
    by_cases h1 : settings.max_nesting_level ≤ nesting
    · rw [if_pos h1]; rfl
    · rw [if_neg h1]
      have h2 : archiveSizeExceeded settings size = true := by
        unfold archiveSizeExceeded
        rw [hm]
        simpa using hs
      rw [if_pos h2]
      rfl
  · intro hf hn hs
    unfold ArchiveExtractor.unpack
    have h1 : ¬ settings.max_nesting_level ≤ nesting := by omega
    rw [if_neg h1]
    have h2 : ¬ archiveSizeExceeded settings size = true := by
      unfold archiveSizeExceeded
      cases hms : settings.max_archive_size with
      | none => simp
      | some m =>
        have := hs m hms
        simp
        omega
    rw [if_neg h2]
    fin_cases hf <;> rfl

/-- Claim C6 (witness): with default settings (`max_nesting_level = 3`,
`max_archive_size = 5 GiB`) a 100-byte zip archive at nesting level 2
proceeds to extraction. -/
theorem C6_witness :
    ArchiveExtractor.unpack ArchiveSettings.default 100 2 .Zip = .ok .Zip :=
  (C6_unpack_limits ArchiveSettings.default 100 2 .Zip).2.2
    (by decide) (by decide)
    (fun m hm => by
      simp only [ArchiveSettings.default, Option.some.injEq] at hm
      omega)

/-- Claim C7: the CSV extractor's reported `row_count` is not the total
number of data rows: `infer_schema` consumes up to 100 records from the
reader and `into_records().count()` counts only what remains, so a CSV
with a header and two data rows reports `row_count = 0` (for any cell
parsers).  The header-only boundary case of the claim does hold:
one header row gives `row_count = 0` and an all-`string` schema. -/
theorem C7_row_count_misses_sampled_rows (isF64 isI64 : Str → Bool) :
    (CsvExtractor.extract isF64 isI64
        [["h1".toList, "h2".toList], ["1".toList, "2".toList],
          ["3".toList, "4".toList]]).2.2 = 0 ∧
    (2 ≠ 0) ∧
    (CsvExtractor.extract isF64 isI64 [["a".toList, "b".toList]]).2.2 = 0 ∧
    ((CsvExtractor.extract isF64 isI64 [["a".toList, "b".toList]]).2.1.all
      (fun c => c.data_type = "string".toList)) = true := by
  refine ⟨rfl, by decide, rfl, rfl⟩

/-- Claim C1: indexing does not keep document identity.  Re-indexing a
Modified file calls `add_document` with the same id and no preceding
delete, so after the second commit the index holds two documents with
that id: `document_count()` is 2 while the number of unique ids added
minus unique ids deleted is 1.  Moreover `index_directory` drops
`Deleted` entries from the change set without any index deletion
(indexer.rs:237-243), so a deleted file's document is never removed. -/
theorem C1_modified_reindex_duplicates_document :
    (InvertedIndex.document_count
      (InvertedIndex.commit (InvertedIndex.add_document
        (InvertedIndex.commit (InvertedIndex.add_document ⟨[], []⟩
          ⟨"8f43c3a5d29ae3e4".toList, "/evidence/c.txt".toList, 5, "aa".toList,
            "text/plain".toList, "text".toList, some "txt".toList,
            some "hello".toList⟩))
        ⟨"8f43c3a5d29ae3e4".toList, "/evidence/c.txt".toList, 11, "bb".toList,
          "text/plain".toList, "text".toList, some "txt".toList,
          some "hello world".toList⟩)) = 2) ∧
    ((InvertedIndex.commit (InvertedIndex.add_document
        (InvertedIndex.commit (InvertedIndex.add_document ⟨[], []⟩
          ⟨"8f43c3a5d29ae3e4".toList, "/evidence/c.txt".toList, 5, "aa".toList,
            "text/plain".toList, "text".toList, some "txt".toList,
            some "hello".toList⟩))
        ⟨"8f43c3a5d29ae3e4".toList, "/evidence/c.txt".toList, 11, "bb".toList,
          "text/plain".toList, "text".toList, some "txt".toList,
          some "hello world".toList⟩)).committed.map TantivyDoc.id).dedup
      = ["8f43c3a5d29ae3e4".toList] ∧
    (2 : Nat) ≠ 1 ∧
    filesToIndex [FileChange.Deleted "/evidence/b.json".toList] = [] := by
  refine ⟨rfl, by decide, by decide, rfl⟩

/-- Claim C5: the query planner ignores `min_size` and `max_size`
entirely — the result of a Metadata query is independent of the size
bounds, and a concrete document of size 10 is returned by a query
requiring `min_size = 100` (and by one requiring `max_size = 5`): size
bounds are honored neither as range filters nor as post-filters
(query.rs:126-160 binds them as `_min_size`/`_max_size` and never reads
them). -/
theorem C5_size_bounds_not_applied :
    (∀ (docs : List TantivyDoc) (cat : Option FileCategory) (mime : Option Str)
        (mn1 mx1 mn2 mx2 : Option Nat) (ext : Option Str),
      QueryPlanner.execute_metadata_filter docs cat mime mn1 mx1 ext
        = QueryPlanner.execute_metadata_filter docs cat mime mn2 mx2 ext) ∧
    (QueryPlanner.execute_metadata_filter
        [⟨"id1".toList, "/e/c.txt".toList, 10, "h".toList, "text/plain".toList,
          "text".toList, some "txt".toList, some "hello".toList⟩]
        none none (some 100) none none
      = [⟨"id1".toList, "/e/c.txt".toList, 10, "h".toList, "text/plain".toList,
          "text".toList, some "txt".toList, some "hello".toList⟩]) ∧
    (10 : Nat) < 100 ∧
    (QueryPlanner.execute_metadata_filter
        [⟨"id1".toList, "/e/c.txt".toList, 10, "h".toList, "text/plain".toList,
          "text".toList, some "txt".toList, some "hello".toList⟩]
        (some .Text) none none (some 5) none
      = [⟨"id1".toList, "/e/c.txt".toList, 10, "h".toList, "text/plain".toList,
          "text".toList, some "txt".toList, some "hello".toList⟩]) ∧
    (5 : Nat) < 10 := by
  refine ⟨fun docs cat mime mn1 mx1 mn2 mx2 ext => rfl, rfl, by decide, by decide, by decide⟩

theorem map_id_on (f : Char → Char) :
    ∀ s : Str, (∀ c ∈ s, f c = c) → s.map f = s := by
  intro s
  induction s with
  | nil => intro _; rfl
  | cons c t ih =>
    intro h
    simp only [List.map_cons]
    rw [h c (by simp), ih (fun x hx => h x (by simp [hx]))]

theorem unesc_esc (name : Str) (h : '#' ∉ name) :
    replaceChar (replaceChar name '-' '#') '#' '-' = name := by
  unfold replaceChar
  rw [List.map_map]
  apply map_id_on
  intro c hc
  have : c ≠ '#' := fun hx => h (hx ▸ hc)
  by_cases hd : c = '-' <;> simp [Function.comp, hd, this]

theorem unesc_no_hash (s : Str) (h : '#' ∉ s) : replaceChar s '#' '-' = s := by
  apply map_id_on
  intro c hc
  have : c ≠ '#' := fun hx => h (hx ▸ hc)
  simp [this]

theorem removeGdash_cons2 (c1 c2 : Char) (t : Str) :
    removeGdash (c1 :: c2 :: t) =
      if c1 = 'g' ∧ c2 = '-' then removeGdash t
      else c1 :: removeGdash (c2 :: t) := rfl

theorem splitDashDash_cons2 (c1 c2 : Char) (t : Str) :
    splitDashDash (c1 :: c2 :: t) =
      if c1 = '-' ∧ c2 = '-' then [] :: splitDashDash t
      else match splitDashDash (c2 :: t) with
        | [] => [[c1]]
        | p :: ps => (c1 :: p) :: ps := rfl

theorem removeGdash_id :
    ∀ s : Str, containsSeq ['g', '-'] s = false → removeGdash s = s
  | [], _ => rfl
  | [_], _ => rfl
  | c1 :: c2 :: t, h => by
    have hh : ['g', '-'].isPrefixOf (c1 :: c2 :: t) = false
        ∧ containsSeq ['g', '-'] (c2 :: t) = false := by
      simpa [containsSeq, Bool.or_eq_false_iff] using h
    have hgd : ¬ (c1 = 'g' ∧ c2 = '-') := by
      intro hx
      simp [List.isPrefixOf, hx.1, hx.2] at hh
    rw [removeGdash_cons2, if_neg hgd, removeGdash_id (c2 :: t) hh.2]

theorem removeGdash_gdash (name : Str)
    (h : containsSeq ['g', '-'] name = false) :
    removeGdash ('g' :: '-' :: name) = name := by
  rw [removeGdash_cons2, if_pos ⟨rfl, rfl⟩, removeGdash_id name h]

theorem splitDashDash_no_dash :
    ∀ b : Str, '-' ∉ b → splitDashDash b = [b]
  | [], _ => rfl
  | [_], _ => rfl
  | c1 :: c2 :: t, h => by
    have h1 : c1 ≠ '-' := fun hx => h (by simp [hx])
    have h2 : '-' ∉ c2 :: t := fun hx => h (List.mem_cons_of_mem _ hx)
    rw [splitDashDash_cons2, if_neg (fun hx => h1 hx.1),
      splitDashDash_no_dash (c2 :: t) h2]

theorem splitDashDash_append (b : Str) (hb : '-' ∉ b) :
    ∀ a : Str, containsSeq ['-', '-'] a = false → a.getLast? ≠ some '-' →
      splitDashDash (a ++ '-' :: '-' :: b) = [a, b]
  | [], _, _ => by
    rw [List.nil_append, splitDashDash_cons2, if_pos ⟨rfl, rfl⟩,
      splitDashDash_no_dash b hb]
  | [c], _, hlast => by
    have hc : c ≠ '-' := fun hx => hlast (by simp [hx])
    have hmid : splitDashDash ('-' :: '-' :: b) = [[], b] := by
      rw [splitDashDash_cons2, if_pos ⟨rfl, rfl⟩, splitDashDash_no_dash b hb]
    rw [List.cons_append, List.nil_append, splitDashDash_cons2,
      if_neg (fun hx => hc hx.1), hmid]
  | c :: c' :: a'', hcs, hlast => by
    have hh : ['-', '-'].isPrefixOf (c :: c' :: a'') = false
        ∧ containsSeq ['-', '-'] (c' :: a'') = false := by
      simpa [containsSeq, Bool.or_eq_false_iff] using hcs
    have hpair : ¬ (c = '-' ∧ c' = '-') := by
      intro hx
      simp [List.isPrefixOf, hx.1, hx.2] at hh
    have hlast' : (c' :: a'').getLast? ≠ some '-' := by
      rwa [List.getLast?_cons_cons] at hlast
    have hih := splitDashDash_append b hb (c' :: a'') hh.2 hlast'
    rw [List.cons_append, List.cons_append, splitDashDash_cons2, if_neg hpair]
    rw [List.cons_append] at hih
    rw [hih]

/-- Claim C9 (counterexample): group round-trip fails.  With a color
that does not start with `#` (or `-`), `get_groups` panics on
`parts[1]` because the unescaped key `g-work-red` contains no `--`
(auxiliary.rs:58-61); and with the color `#ff0000` the listed color is
`ff0000` — the leading `#` was turned into `-` by the unescaping and
consumed as part of the `--` delimiter — so the returned color differs
from the original. -/
theorem C9_counterexample_roundtrip :
    AuxiliaryProjectDb.get_groups
      (AuxiliaryProjectDb.create_group sledInit "work".toList "red".toList) = none ∧
    AuxiliaryProjectDb.get_groups
      (AuxiliaryProjectDb.create_group sledInit "work".toList ('#' :: "ff0000".toList))
      = some [("work".toList, "ff0000".toList)] ∧
    ('#' :: "ff0000".toList) ≠ "ff0000".toList :=
  ⟨by decide, by decide, by decide⟩

/-- Claim C9 (amended): on a fresh store, for every non-empty group name
without `#`, without the substrings `g-` and `--`, and neither starting
nor ending with `-` (hyphens inside the name are fine: they are escaped
to `#` in the compound key and unescaped on listing), and for every
color of the form `#` followed by characters other than `-` and `#`,
`create_group(name, color)` followed by `get_groups()` returns exactly
one group whose name equals the original name and whose color equals
the original color with its leading `#` removed. -/
theorem C9_group_roundtrip (name rest : Str)
    (h1 : name ≠ []) (h2 : '#' ∉ name)
    (h3 : containsSeq ['-', '-'] name = false)
    (h4 : containsSeq ['g', '-'] name = false)
    (h5 : name.head? ≠ some '-') (h6 : name.getLast? ≠ some '-')
    (h7 : '#' ∉ rest) (h8 : '-' ∉ rest) :
    AuxiliaryProjectDb.get_groups
      (AuxiliaryProjectDb.create_group sledInit name ('#' :: rest))
      = some [(name, rest)] := by
  have hkey_cons : "g-".toList ++ replaceChar name '-' '#' ++ "-".toList ++ ('#' :: rest)
      = 'g' :: '-' :: (replaceChar name '-' '#' ++ '-' :: '#' :: rest) := by
    simp
  have hnotin : "g-".toList ++ replaceChar name '-' '#' ++ "-".toList ++ ('#' :: rest)
      ∉ sledInit := by
    rw [hkey_cons]
    simp [sledInit]
  have hdb : AuxiliaryProjectDb.create_group sledInit name ('#' :: rest)
      = sledInit ++ ['g' :: '-' :: (replaceChar name '-' '#' ++ '-' :: '#' :: rest)] := by
    unfold AuxiliaryProjectDb.create_group
    rw [if_neg hnotin, hkey_cons]
  have hunesc : replaceChar
      ('g' :: '-' :: (replaceChar name '-' '#' ++ '-' :: '#' :: rest)) '#' '-'
      = 'g' :: '-' :: (name ++ '-' :: '-' :: rest) := by
    have e1 : replaceChar
        ('g' :: '-' :: (replaceChar name '-' '#' ++ '-' :: '#' :: rest)) '#' '-'
        = 'g' :: '-' :: (replaceChar (replaceChar name '-' '#') '#' '-'
            ++ '-' :: '-' :: replaceChar rest '#' '-') := by
      unfold replaceChar
      simp
    rw [e1, unesc_esc name h2, unesc_no_hash rest h7]
  have hdefault : replaceChar "__sled__default".toList '#' '-'
      = "__sled__default".toList := by decide
  have htrees : AuxiliaryProjectDb.get_trees
      (sledInit ++ ['g' :: '-' :: (replaceChar name '-' '#' ++ '-' :: '#' :: rest)])
      = ['g' :: '-' :: (name ++ '-' :: '-' :: rest)] := by
    unfold AuxiliaryProjectDb.get_trees
    simp only [sledInit, List.map_append, List.map_cons, List.map_nil, hunesc, hdefault]
    simp [List.filter]
  have hpre : containsSeq ['-', '-'] ('g' :: '-' :: name) = false := by
    simp only [containsSeq, Bool.or_eq_false_iff]
    refine ⟨by simp [List.isPrefixOf], ⟨?_, h3⟩⟩
    cases name with
    | nil => simp [List.isPrefixOf]
    | cons c t =>
      have hcne : c ≠ '-' := by
        intro hx
        exact h5 (by simp [hx])
      simp [List.isPrefixOf, Ne.symm hcne]
  have hlast2 : ('g' :: '-' :: name).getLast? ≠ some '-' := by
    cases name with
    | nil => exact absurd rfl h1
    | cons c t =>
      rw [List.getLast?_cons_cons]
      rwa [List.getLast?_cons_cons]
  have hsplit : splitDashDash ('g' :: '-' :: (name ++ '-' :: '-' :: rest))
      = ['g' :: '-' :: name, rest] := by
    have := splitDashDash_append rest h8 ('g' :: '-' :: name) hpre hlast2
    rwa [List.cons_append, List.cons_append] at this
  unfold AuxiliaryProjectDb.get_groups
  rw [hdb, htrees]
  have hstart : strStartsWith ('g' :: '-' :: (name ++ '-' :: '-' :: rest))
      "g-".toList = true := by
    simp [strStartsWith, List.isPrefixOf]
  simp only [List.filter, hstart]
  unfold collectGroups
  rw [hsplit]
  simp only [List.headD]
  rw [removeGdash_gdash name h4]
  rfl

/-- Claim C9 (witness): the amended round-trip applied to the group
`("work", "#ff0000")`, which lists as `("work", "ff0000")`. -/
theorem C9_witness :
    AuxiliaryProjectDb.get_groups
      (AuxiliaryProjectDb.create_group sledInit "work".toList ('#' :: "ff0000".toList))
      = some [("work".toList, "ff0000".toList)] :=
  C9_group_roundtrip "work".toList "ff0000".toList (by decide) (by decide)
    (by decide) (by decide) (by decide) (by decide) (by decide) (by decide)

end Forensics
